import Mathlib

/-!
# engineering-delivery-metrics: metrics store, collector and entrypoint

A shallow embedding of `pkg/storage/storage.go`, `pkg/collector/collector.go`
and `cmd/main/main.go`, with the record types of `pkg/github/github.go` and
`pkg/jira/jira.go`.

The Prometheus client library is an external collaborator.  A metric vector
(`CounterVec`, `GaugeVec`) is embedded as a finite list of series, one per
label tuple, in creation order.  The library calls the store makes are
`Reset()` and `WithLabelValues(..).Inc()`.  Values are natural numbers: every
value the store writes is a count of `Inc()` calls.  Lean strings are valid
Unicode, which is what `WithLabelValues` accepts as label values.
-/

namespace prometheus

/-- The label values that identify one series of a metric vector. -/
abbrev Labels := List String

/-- A metric vector: the series created so far, each with its current value. -/
abbrev MetricVec := List (Labels × Nat)

/-- The label tuples that have a series in the vector. -/
def keys (m : MetricVec) : List Labels := m.map Prod.fst

/-- The call `vec.Reset()`: every series is deleted. -/
def Reset (_m : MetricVec) : MetricVec := []

/-- The call `vec.WithLabelValues(lvs...).Inc()`: the series for `lvs` is created at zero when
it does not exist yet, and then incremented by one. -/
def WithLabelValuesInc (lvs : Labels) : MetricVec → MetricVec
  | [] => [(lvs, 1)]
  | (k, v) :: rest =>
    if k = lvs then (k, v + 1) :: rest else (k, v) :: WithLabelValuesInc lvs rest

/-- The value exposed for the label tuple `lvs`; a tuple without a series counts as zero. -/
def value (lvs : Labels) : MetricVec → Nat
  | [] => 0
  | (k, v) :: rest => if k = lvs then v else value lvs rest

end prometheus

namespace github

/-- The struct `CommitInfo` of `pkg/github/github.go`. -/
structure CommitInfo where
  Author : String
  SHA : String
  Date : String
  deriving DecidableEq, Repr

/-- The struct `PullRequestInfo` of `pkg/github/github.go`. -/
structure PullRequestInfo where
  Author : String
  Title : String
  Number : Int
  State : String
  deriving DecidableEq, Repr

/-- The struct `RepoInfo` of `pkg/github/github.go`. -/
structure RepoInfo where
  Owner : String
  Name : String
  deriving DecidableEq, Repr

end github

namespace jira

/-- The struct `Issue` of `pkg/jira/jira.go`. -/
structure Issue where
  Key : String
  Assignee : String
  Status : String
  Project : String
  deriving DecidableEq, Repr

end jira

namespace storage

open prometheus

/-- The struct `MetricsStorage` of `pkg/storage/storage.go`: the three metric vectors.  The mutex
`mu` is held for the whole of every update and is free between two calls; it is a field of its
own in the interleaving model `Shared` below. -/
structure MetricsStorage where
  githubCommitsTotal : MetricVec
  githubPullRequestsTotal : MetricVec
  jiraIssues : MetricVec
  deriving DecidableEq, Repr

/-- The constructor `NewMetricsStorage`: three vectors without any series. -/
def NewMetricsStorage : MetricsStorage :=
  { githubCommitsTotal := [], githubPullRequestsTotal := [], jiraIssues := [] }

/-- The labels `(commit.Author, "your-repo")` of storage.go line 70. -/
def commitLabels (commit : github.CommitInfo) : Labels := [commit.Author, "your-repo"]

/-- The labels `("your-repo", pr.State, pr.Author)` of storage.go line 83. -/
def prLabels (pr : github.PullRequestInfo) : Labels := ["your-repo", pr.State, pr.Author]

/-- The labels `(issue.Project, issue.Status, issue.Assignee)` of storage.go line 95. -/
def issueLabels (issue : jira.Issue) : Labels := [issue.Project, issue.Status, issue.Assignee]

/-- The method `UpdateGithubCommits`: one `Inc()` per commit, without a reset. -/
def UpdateGithubCommits (commits : List github.CommitInfo) (s : MetricsStorage) :
    MetricsStorage :=
  { s with
    githubCommitsTotal :=
      List.foldl (fun m commit => WithLabelValuesInc (commitLabels commit) m)
        s.githubCommitsTotal commits }

/-- The method `UpdateGithubPullRequests`: `Reset()`, then one `Inc()` per pull request. -/
def UpdateGithubPullRequests (prs : List github.PullRequestInfo) (s : MetricsStorage) :
    MetricsStorage :=
  { s with
    githubPullRequestsTotal :=
      List.foldl (fun m pr => WithLabelValuesInc (prLabels pr) m)
        (Reset s.githubPullRequestsTotal) prs }

/-- The method `UpdateJiraIssues`: `Reset()`, then one `Inc()` per issue. -/
def UpdateJiraIssues (issues : List jira.Issue) (s : MetricsStorage) : MetricsStorage :=
  { s with
    jiraIssues :=
      List.foldl (fun m issue => WithLabelValuesInc (issueLabels issue) m)
        (Reset s.jiraIssues) issues }

/-- One call of a store operation with its argument. -/
inductive Op where
  | commits (l : List github.CommitInfo)
  | pullRequests (l : List github.PullRequestInfo)
  | issues (l : List jira.Issue)

/-- The store after the call `op`. -/
def Op.apply : Op → MetricsStorage → MetricsStorage
  | .commits l, s => UpdateGithubCommits l s
  | .pullRequests l, s => UpdateGithubPullRequests l s
  | .issues l, s => UpdateJiraIssues l s

end storage

namespace storage

open prometheus

/-! ### Interleaving model of the store

`Lock()`, `Reset()`, each `WithLabelValues(..).Inc()` and `Unlock()` are separate calls; another
goroutine can run between any two of them.  The handler `promhttp.Handler()` that `StartServer`
installs (storage.go line 102) gathers the registered vectors and never takes `s.mu`. -/

/-- The store together with the state of its mutex `mu` (`true`: held). -/
structure Shared where
  mu : Bool
  store : MetricsStorage
  deriving DecidableEq, Repr

/-- The atomic steps an update method is made of. -/
inductive Instr where
  | lock
  | resetPullRequests
  | incPullRequests (lvs : Labels)
  | resetIssues
  | incIssues (lvs : Labels)
  | unlock
  deriving DecidableEq, Repr

/-- One atomic step on the shared store; `none` when the step cannot proceed (`Lock()` on a held
mutex blocks). -/
def Instr.step : Instr → Shared → Option Shared
  | .lock, sh => if sh.mu then none else some { sh with mu := true }
  | .resetPullRequests, sh =>
    some { sh with
      store := { sh.store with
        githubPullRequestsTotal := Reset sh.store.githubPullRequestsTotal } }
  | .incPullRequests lvs, sh =>
    some { sh with
      store := { sh.store with
        githubPullRequestsTotal := WithLabelValuesInc lvs sh.store.githubPullRequestsTotal } }
  | .resetIssues, sh =>
    some { sh with store := { sh.store with jiraIssues := Reset sh.store.jiraIssues } }
  | .incIssues lvs, sh =>
    some { sh with
      store := { sh.store with jiraIssues := WithLabelValuesInc lvs sh.store.jiraIssues } }
  | .unlock, sh => some { sh with mu := false }

/-- The steps of `UpdateGithubPullRequests(prs)`, storage.go lines 76 to 84, in program order;
the deferred `Unlock()` is last. -/
def UpdateGithubPullRequests.instrs (prs : List github.PullRequestInfo) : List Instr :=
  [Instr.lock, Instr.resetPullRequests] ++ prs.map (fun pr => Instr.incPullRequests (prLabels pr))
    ++ [Instr.unlock]

/-- The steps of `UpdateJiraIssues(issues)`, storage.go lines 89 to 96, in program order. -/
def UpdateJiraIssues.instrs (issues : List jira.Issue) : List Instr :=
  [Instr.lock, Instr.resetIssues] ++ issues.map (fun issue => Instr.incIssues (issueLabels issue))
    ++ [Instr.unlock]

/-- The steps of a list run one after the other. -/
def exec : List Instr → Shared → Option Shared
  | [], sh => some sh
  | i :: rest, sh =>
    match i.step sh with
    | none => none
    | some sh' => exec rest sh'

/-- What a scrape reads: the vectors as they are at that moment.  The read does not depend on
`mu`, which the handler never takes. -/
def scrape (sh : Shared) : MetricsStorage := sh.store

/-- What a scrape observes when it runs after the first `n` steps of an update in progress. -/
def scrapeAfter (n : Nat) (instrs : List Instr) (sh : Shared) : Option MetricsStorage :=
  (exec (instrs.take n) sh).map scrape

end storage

namespace github

/-- The struct `Client` of `pkg/github/github.go`: the repository it is bound to.  The answers of
the GitHub API behind its field `client` are in `collector.Upstream`. -/
structure Client where
  owner : String
  repo : String
  deriving DecidableEq, Repr

end github

namespace jira

/-- The struct `Client` of `pkg/jira/jira.go`, with the base URL its library client was built
for.  The answers of the Jira API are in `collector.Upstream`. -/
structure Client where
  baseURL : String
  deriving DecidableEq, Repr

end jira

namespace collector

open storage

/-- The struct `Collector`; a client pointer can be `nil`.  The store it points to is passed to
`collect` and `Run` as an argument. -/
structure Collector where
  githubClient : Option github.Client
  jiraClient : Option jira.Client
  deriving DecidableEq, Repr

/-- What the upstream services answer to the fetch operations during one collection cycle: the
value or the error message of `GetRepos`, `GetPullRequests`, `GetCommits` and `GetIssues`. -/
structure Upstream where
  repos : Except String (List github.RepoInfo)
  prs : Except String (List github.PullRequestInfo)
  commits : Except String (List github.CommitInfo)
  issues : Except String (List jira.Issue)

/-- What a collection cycle does that is visible from outside: the fetch operations it invokes,
the store methods it calls, and the lines it logs. -/
inductive Action where
  | GetRepos
  | GetPullRequests
  | GetCommits
  | GetIssues
  | UpdateGithubCommits (commits : List github.CommitInfo)
  | UpdateGithubPullRequests (prs : List github.PullRequestInfo)
  | UpdateJiraIssues (issues : List jira.Issue)
  | logReposError (err : String)
  | logReposFetched (n : Nat)
  | logRepos (repos : List github.RepoInfo)
  | logPullRequestsError (err : String)
  | logPullRequestsFetched (n : Nat)
  | logFinished
  deriving DecidableEq, Repr

/-- The repository part of `collect`, collector.go lines 65 to 71: the fetch and the log lines;
no store method is called. -/
def collectRepos (up : Upstream) : List Action :=
  match up.repos with
  | .error err => [Action.GetRepos, Action.logReposError err]
  | .ok repos => [Action.GetRepos, Action.logReposFetched repos.length, Action.logRepos repos]

/-- The method `collect`, collector.go lines 50 to 97.  `log.Fatalf` on a `nil` GitHub client ends
the process: the result is then the error with its message.  The commit and the Jira parts are
commented out in the source and do nothing.  Otherwise the result is the store after the cycle and
what the cycle did. -/
def collect (c : Collector) (up : Upstream) (s : MetricsStorage) :
    Except String (MetricsStorage × List Action) :=
  match c.githubClient with
  | none => .error "GitHub client is not configured"
  | some _ =>
    match up.prs with
    | .error err =>
      .ok (s, collectRepos up ++
        [Action.GetPullRequests, Action.logPullRequestsError err, Action.logFinished])
    | .ok prs =>
      .ok (UpdateGithubPullRequests prs s, collectRepos up ++
        [Action.GetPullRequests, Action.logPullRequestsFetched prs.length,
          Action.UpdateGithubPullRequests prs, Action.logFinished])

/-- Which case of the `select` in `Run` fires: a tick of the ticker, or `ctx.Done()`. -/
inductive Event where
  | tick
  | done
  deriving DecidableEq, Repr

/-- What `Run` does, in order: a collection cycle, the receipt of a tick, the receipt of the
cancellation. -/
inductive RunStep where
  | cycle
  | tick
  | cancelled
  deriving DecidableEq, Repr

/-- How a run of `Run` stands when the events are used up. -/
inductive RunStatus where
  | returned
  | waiting
  | fatal (msg : String)
  | panicked (msg : String)
  deriving DecidableEq, Repr

/-- The result of `Run`: the store, the calls of `collect` so far, the ticks received so far,
the steps in order, and the status. -/
structure RunResult where
  storage : MetricsStorage
  cycles : Nat
  ticks : Nat
  steps : List RunStep
  status : RunStatus
  deriving DecidableEq, Repr

/-- The `for`/`select` loop of `Run`, collector.go lines 37 to 46.  `r` is the run so far; the
cycle number `r.cycles` selects the upstream answers of the next cycle. -/
def Run.loop (c : Collector) (up : Nat → Upstream) : List Event → RunResult → RunResult
  | [], r => { r with status := RunStatus.waiting }
  | Event.done :: _, r =>
    { r with steps := r.steps ++ [RunStep.cancelled], status := RunStatus.returned }
  | Event.tick :: rest, r =>
    match collect c (up r.cycles) r.storage with
    | .error msg =>
      { r with
        cycles := r.cycles + 1, ticks := r.ticks + 1,
        steps := r.steps ++ [RunStep.tick, RunStep.cycle], status := RunStatus.fatal msg }
    | .ok (s', _) =>
      Run.loop c up rest
        { r with
          storage := s', cycles := r.cycles + 1, ticks := r.ticks + 1,
          steps := r.steps ++ [RunStep.tick, RunStep.cycle] }

/-- The method `Run`, collector.go lines 30 to 47: the ticker, one cycle at once, then the loop.
`interval` is the `time.Duration` in nanoseconds; `time.NewTicker` panics when it is not
positive.  `events` are the cases of `select` that fire, in order. -/
def Run (c : Collector) (interval : Int) (up : Nat → Upstream) (events : List Event)
    (s : MetricsStorage) : RunResult :=
  if interval ≤ 0 then
    { storage := s, cycles := 0, ticks := 0, steps := [],
      status := RunStatus.panicked "non-positive interval for NewTicker" }
  else
    match collect c (up 0) s with
    | .error msg =>
      { storage := s, cycles := 1, ticks := 0, steps := [RunStep.cycle],
        status := RunStatus.fatal msg }
    | .ok (s', _) =>
      Run.loop c up events
        { storage := s', cycles := 1, ticks := 0, steps := [RunStep.cycle],
          status := RunStatus.waiting }

/-- The steps of `n` rounds of the loop: a tick received, then a cycle. -/
def Run.rounds : Nat → List RunStep
  | 0 => []
  | n + 1 => RunStep.tick :: RunStep.cycle :: Run.rounds n

/-- The ticks of `events` that come before the first cancellation. -/
def ticksBeforeDone (events : List Event) : Nat :=
  (events.takeWhile (fun e => decide (e = Event.tick))).length

end collector

namespace cmd

/-- The `log.Fatal` and `log.Fatalf` calls of `main`. -/
inductive Fatal where
  | githubVariables
  | jiraVariables
  | invalidInterval (err : String)
  | jiraClient (err : String)
  deriving DecidableEq, Repr

/-- The text each fatal call logs, main.go lines 36, 39, 49 and 64. -/
def Fatal.message : Fatal → String
  | .githubVariables => "GitHub variables (GITHUB_TOKEN, GITHUB_OWNER, GITHUB_REPO) must be set."
  | .jiraVariables => "Jira variables (JIRA_URL, JIRA_EMAIL, JIRA_API_TOKEN) must be set."
  | .invalidInterval err => "Invalid format for collection interval: " ++ err
  | .jiraClient err => "Failed to create Jira client: " ++ err

/-- The components `main` creates and the goroutines it starts, in order. -/
inductive Startup where
  | githubClient (token owner repo : String)
  | jiraClient (url email apiToken : String)
  | metricsStorage
  | collector
  | startServer (addr : String)
  | runCollector (interval : Int)
  deriving DecidableEq, Repr

/-- The six credential variables `main` reads, main.go lines 26 to 32. -/
def credentialVariables : List String :=
  ["GITHUB_TOKEN", "GITHUB_OWNER", "GITHUB_REPO", "JIRA_URL", "JIRA_EMAIL", "JIRA_API_TOKEN"]

/-- The text `msg` contains the name `name`. -/
def names (msg name : String) : Prop := name.toList <:+: msg.toList

instance (msg name : String) : Decidable (names msg name) := by
  unfold names
  infer_instance

/-- The function `main`, main.go lines 20 to 83, up to the line "Application started".
`getenv` is the environment after `godotenv.Load()`.  `parseDuration` stands for
`time.ParseDuration` and `newJiraClient` for `jira.NewClient`, whose error comes from the Jira
library.  The result is what was created and started, in order, and the fatal call that ended
startup if there was one. -/
def main (getenv : String → String) (parseDuration : String → Except String Int)
    (newJiraClient : String → String → String → Except String Unit) :
    List Startup × Option Fatal :=
  let githubToken := getenv "GITHUB_TOKEN"
  let githubOwner := getenv "GITHUB_OWNER"
  let githubRepo := getenv "GITHUB_REPO"
  let jiraURL := getenv "JIRA_URL"
  let jiraEmail := getenv "JIRA_EMAIL"
  let jiraApiToken := getenv "JIRA_API_TOKEN"
  if githubToken = "" ∨ githubOwner = "" ∨ githubRepo = "" then
    ([], some Fatal.githubVariables)
  else if jiraURL = "" ∨ jiraEmail = "" ∨ jiraApiToken = "" then
    ([], some Fatal.jiraVariables)
  else
    let intervalStr := if getenv "COLLECTION_INTERVAL" = "" then "1m"
      else getenv "COLLECTION_INTERVAL"
    match parseDuration intervalStr with
    | .error err => ([], some (Fatal.invalidInterval err))
    | .ok collectionInterval =>
      let serverAddr := if getenv "SERVER_ADDR" = "" then ":9091" else getenv "SERVER_ADDR"
      let created := [Startup.githubClient githubToken githubOwner githubRepo]
      match newJiraClient jiraURL jiraEmail jiraApiToken with
      | .error err => (created, some (Fatal.jiraClient err))
      | .ok _ =>
        (created ++ [Startup.jiraClient jiraURL jiraEmail jiraApiToken, Startup.metricsStorage,
          Startup.collector, Startup.startServer serverAddr,
          Startup.runCollector collectionInterval], none)

end cmd

/-! ## Concrete inputs -/

namespace scenario

/-- The two pull requests of the end-to-end scenario. -/
def prs : List github.PullRequestInfo :=
  [{ Author := "a", Title := "x", Number := 1, State := "open" },
    { Author := "b", Title := "y", Number := 2, State := "closed" }]

/-- A store that holds one row in each family. -/
def staleStore : storage.MetricsStorage :=
  { githubCommitsTotal := [(["a", "your-repo"], 1)],
    githubPullRequestsTotal := [(["your-repo", "open", "z"], 5)],
    jiraIssues := [(["GT", "Done", "z"], 2)] }

/-- A collector as `main` builds it: both clients present. -/
def configured : collector.Collector :=
  { githubClient := some { owner := "o", repo := "r" },
    jiraClient := some { baseURL := "https://jira.example" } }

/-- One Jira issue. -/
def issue : jira.Issue := { Key := "GT-1", Assignee := "z", Status := "Done", Project := "GT" }

/-- A cycle in which the repository fetch fails and the other fetches would succeed. -/
def reposDown : collector.Upstream :=
  { repos := .error "boom", prs := .ok prs, commits := .ok [], issues := .ok [issue] }

/-- A cycle in which the pull-request fetch fails. -/
def prsDown : collector.Upstream :=
  { repos := .ok [], prs := .error "boom", commits := .ok [], issues := .ok [issue] }

/-- A cycle in which every fetch would succeed. -/
def allUp : collector.Upstream :=
  { repos := .ok [{ Owner := "o", Name := "r" }], prs := .ok [], commits := .ok [],
    issues := .ok [issue] }

/-- Two ticks, the cancellation, and a tick that comes after it. -/
def events : List collector.Event :=
  [collector.Event.tick, collector.Event.tick, collector.Event.done, collector.Event.tick]

end scenario

/-! ## Lemmas on metric vectors -/

namespace prometheus

theorem keys_inc (lvs : Labels) (m : MetricVec) :
    keys (WithLabelValuesInc lvs m) = if lvs ∈ keys m then keys m else keys m ++ [lvs] := by
  induction m with
  | nil => simp [WithLabelValuesInc, keys]
  | cons e rest ih =>
    obtain ⟨k, v⟩ := e
    by_cases h : k = lvs
    · subst h
      simp [WithLabelValuesInc, keys]
    · have h' : ¬ lvs = k := fun e => h e.symm
      simp only [keys] at ih
      by_cases hm : lvs ∈ List.map Prod.fst rest
      · simp [WithLabelValuesInc, keys, h, hm, ih]
      · simp [WithLabelValuesInc, keys, h, h', hm, ih]

theorem mem_keys_inc (lvs k : Labels) (m : MetricVec) :
    k ∈ keys (WithLabelValuesInc lvs m) ↔ k ∈ keys m ∨ k = lvs := by
  rw [keys_inc]
  by_cases h : lvs ∈ keys m
  · simp only [h, if_true]
    constructor
    · exact Or.inl
    · rintro (h1 | h1)
      · exact h1
      · exact h1 ▸ h
  · simp [h]

theorem nodup_keys_inc (lvs : Labels) (m : MetricVec) (h : (keys m).Nodup) :
    (keys (WithLabelValuesInc lvs m)).Nodup := by
  rw [keys_inc]
  by_cases hm : lvs ∈ keys m
  · simpa [hm] using h
  · simp only [hm, if_false]
    rw [List.nodup_append]
    refine ⟨h, List.nodup_singleton _, ?_⟩
    intro a ha hb
    rw [List.mem_singleton] at hb
    exact hm (hb ▸ ha)

theorem value_inc (lvs k : Labels) (m : MetricVec) :
    value k (WithLabelValuesInc lvs m) = value k m + if lvs = k then 1 else 0 := by
  induction m with
  | nil =>
    by_cases h : lvs = k <;> simp [WithLabelValuesInc, value, h]
  | cons e rest ih =>
    obtain ⟨k0, v⟩ := e
    by_cases h0 : k0 = lvs
    · subst h0
      by_cases h : k0 = k <;> simp [WithLabelValuesInc, value, h]
    · by_cases h : k0 = k
      · subst h
        have h' : ¬ lvs = k0 := fun e => h0 e.symm
        simp [WithLabelValuesInc, value, h0, h']
      · simp [WithLabelValuesInc, value, h0, h, ih]

theorem value_of_mem (m : MetricVec) (h : (keys m).Nodup) (k : Labels) (v : Nat)
    (hm : (k, v) ∈ m) : value k m = v := by
  induction m with
  | nil => cases hm
  | cons e rest ih =>
    obtain ⟨k0, v0⟩ := e
    simp only [keys, List.map_cons, List.nodup_cons] at h
    rcases List.mem_cons.mp hm with h1 | h1
    · cases h1
      simp [value]
    · have hk : k ∈ List.map Prod.fst rest := List.mem_map.mpr ⟨(k, v), h1, rfl⟩
      have hne : ¬ k0 = k := fun e => h.1 (e ▸ hk)
      simp only [value, hne, if_false]
      exact ih h.2 h1

/-- One `Inc()` per element of `xs`, at the labels `f x`, keeps the label tuples distinct. -/
theorem nodup_keys_foldl {α : Type} (f : α → Labels) (xs : List α) (m : MetricVec)
    (h : (keys m).Nodup) :
    (keys (xs.foldl (fun m x => WithLabelValuesInc (f x) m) m)).Nodup := by
  induction xs generalizing m with
  | nil => simpa using h
  | cons x xs ih => exact ih _ (nodup_keys_inc _ _ h)

theorem mem_keys_foldl {α : Type} (f : α → Labels) (xs : List α) (m : MetricVec) (k : Labels) :
    k ∈ keys (xs.foldl (fun m x => WithLabelValuesInc (f x) m) m) ↔
      k ∈ keys m ∨ ∃ x ∈ xs, f x = k := by
  induction xs generalizing m with
  | nil => simp
  | cons x xs ih =>
    rw [List.foldl_cons, ih, mem_keys_inc]
    constructor
    · rintro ((h | h) | ⟨y, hy, hk⟩)
      · exact Or.inl h
      · exact Or.inr ⟨x, List.mem_cons_self _ _, h.symm⟩
      · exact Or.inr ⟨y, List.mem_cons_of_mem _ hy, hk⟩
    · rintro (h | ⟨y, hy, hk⟩)
      · exact Or.inl (Or.inl h)
      · rcases List.mem_cons.mp hy with h1 | h1
        · exact Or.inl (Or.inr (by rw [← hk, h1]))
        · exact Or.inr ⟨y, h1, hk⟩

theorem value_foldl {α : Type} (f : α → Labels) (xs : List α) (m : MetricVec) (k : Labels) :
    value k (xs.foldl (fun m x => WithLabelValuesInc (f x) m) m) =
      value k m + xs.countP (fun x => decide (f x = k)) := by
  induction xs generalizing m with
  | nil => simp
  | cons x xs ih =>
    rw [List.foldl_cons, ih, value_inc, List.countP_cons]
    by_cases h : f x = k
    · simp [h]; omega
    · simp [h]

end prometheus

/-! ## The store operations -/

namespace storage

open prometheus

/-- The commit family after one store operation: no count goes down and no series goes away. -/
theorem commits_mono_step (s : MetricsStorage) (op : Op) (k : Labels) :
    value k s.githubCommitsTotal ≤ value k (op.apply s).githubCommitsTotal ∧
      (k ∈ keys s.githubCommitsTotal → k ∈ keys (op.apply s).githubCommitsTotal) := by
  cases op with
  | commits l =>
    simp only [Op.apply, UpdateGithubCommits]
    constructor
    · rw [value_foldl commitLabels l s.githubCommitsTotal k]
      exact Nat.le_add_right _ _
    · intro h
      exact (mem_keys_foldl commitLabels l s.githubCommitsTotal k).mpr (Or.inl h)
  | pullRequests l => exact ⟨le_refl _, fun h => h⟩
  | issues l => exact ⟨le_refl _, fun h => h⟩

/-- C1: after `UpdateGithubPullRequests prs`, whatever the store held before, the pull-request
gauge family has no two entries with the same labels, has an entry for a label tuple exactly when
a record of `prs` carries that tuple, and every entry holds the number of records of `prs` with
its labels (so does the value read at any tuple, zero for the absent ones).  On the two records
of the end-to-end scenario the family is the two rows with value one. -/
theorem C1_update_pull_requests_full_reset (s : MetricsStorage)
    (prs : List github.PullRequestInfo) :
    (keys (UpdateGithubPullRequests prs s).githubPullRequestsTotal).Nodup ∧
    (∀ k, k ∈ keys (UpdateGithubPullRequests prs s).githubPullRequestsTotal ↔
      ∃ pr ∈ prs, prLabels pr = k) ∧
    (∀ k v, (k, v) ∈ (UpdateGithubPullRequests prs s).githubPullRequestsTotal →
      v = prs.countP (fun pr => decide (prLabels pr = k))) ∧
    (∀ k, value k (UpdateGithubPullRequests prs s).githubPullRequestsTotal =
      prs.countP (fun pr => decide (prLabels pr = k))) ∧
    (UpdateGithubPullRequests
        [{ Author := "a", Title := "x", Number := 1, State := "open" },
          { Author := "b", Title := "y", Number := 2, State := "closed" }] s).githubPullRequestsTotal
      = [(["your-repo", "open", "a"], 1), (["your-repo", "closed", "b"], 1)] := by
  have hnodup : (keys (UpdateGithubPullRequests prs s).githubPullRequestsTotal).Nodup := by
    simp only [UpdateGithubPullRequests, Reset]
    exact nodup_keys_foldl prLabels prs [] (by simp [keys])
  have hval : ∀ k, value k (UpdateGithubPullRequests prs s).githubPullRequestsTotal =
      prs.countP (fun pr => decide (prLabels pr = k)) := by
    intro k
    simp only [UpdateGithubPullRequests, Reset]
    rw [value_foldl prLabels prs [] k]
    simp [value]
  refine ⟨hnodup, ?_, ?_, hval, ?_⟩
  · intro k
    simp only [UpdateGithubPullRequests, Reset]
    rw [mem_keys_foldl prLabels prs [] k]
    simp [keys]
  · intro k v hm
    rw [← hval k]
    exact (value_of_mem _ hnodup k v hm).symm
  · simp [UpdateGithubPullRequests, Reset, WithLabelValuesInc, prLabels]

/-- C1, at the two records of the end-to-end scenario and a store that held a stale row: the row
for the open pull request of `a` is in the family, and its value is the count one. -/
theorem C1_update_pull_requests_full_reset_witness :
    ((["your-repo", "open", "a"], 1) ∈
      (UpdateGithubPullRequests scenario.prs scenario.staleStore).githubPullRequestsTotal) ∧
    1 = scenario.prs.countP (fun pr => decide (prLabels pr = ["your-repo", "open", "a"])) :=
  ⟨by decide,
    (C1_update_pull_requests_full_reset scenario.staleStore scenario.prs).2.2.1
      ["your-repo", "open", "a"] 1 (by decide)⟩

/-- C2: two gauge updates in a row leave the gauge family, and the whole store, as the second
update alone would, for `UpdateGithubPullRequests` and for `UpdateJiraIssues`; and the family then
reflects the second input only: it has an entry for a label tuple exactly when a record of the
second list carries that tuple, and the value at every tuple is the number of records of the
second list with that tuple, whatever the first list and the store held. -/
theorem C2_gauge_update_replaces (s : MetricsStorage)
    (a b : List github.PullRequestInfo) (a' b' : List jira.Issue) :
    (UpdateGithubPullRequests b (UpdateGithubPullRequests a s)).githubPullRequestsTotal =
      (UpdateGithubPullRequests b s).githubPullRequestsTotal ∧
    UpdateGithubPullRequests b (UpdateGithubPullRequests a s) = UpdateGithubPullRequests b s ∧
    (UpdateJiraIssues b' (UpdateJiraIssues a' s)).jiraIssues = (UpdateJiraIssues b' s).jiraIssues ∧
    UpdateJiraIssues b' (UpdateJiraIssues a' s) = UpdateJiraIssues b' s ∧
    (∀ k, value k (UpdateGithubPullRequests b (UpdateGithubPullRequests a s)).githubPullRequestsTotal
      = b.countP (fun pr => decide (prLabels pr = k))) ∧
    (∀ k, k ∈ keys (UpdateGithubPullRequests b (UpdateGithubPullRequests a s)).githubPullRequestsTotal
      ↔ ∃ pr ∈ b, prLabels pr = k) ∧
    (keys (UpdateGithubPullRequests b
      (UpdateGithubPullRequests a s)).githubPullRequestsTotal).Nodup ∧
    (∀ k, value k (UpdateJiraIssues b' (UpdateJiraIssues a' s)).jiraIssues
      = b'.countP (fun issue => decide (issueLabels issue = k))) ∧
    (∀ k, k ∈ keys (UpdateJiraIssues b' (UpdateJiraIssues a' s)).jiraIssues
      ↔ ∃ issue ∈ b', issueLabels issue = k) ∧
    (keys (UpdateJiraIssues b' (UpdateJiraIssues a' s)).jiraIssues).Nodup := by
  refine ⟨rfl, rfl, rfl, rfl, ?_, ?_, ?_, ?_, ?_, ?_⟩
  · intro k
    simp only [UpdateGithubPullRequests, Reset]
    rw [value_foldl prLabels b [] k]
    simp [value]
  · intro k
    simp only [UpdateGithubPullRequests, Reset]
    rw [mem_keys_foldl prLabels b [] k]
    simp [keys]
  · simp only [UpdateGithubPullRequests, Reset]
    exact nodup_keys_foldl prLabels b [] (by simp [keys])
  · intro k
    simp only [UpdateJiraIssues, Reset]
    rw [value_foldl issueLabels b' [] k]
    simp [value]
  · intro k
    simp only [UpdateJiraIssues, Reset]
    rw [mem_keys_foldl issueLabels b' [] k]
    simp [keys]
  · simp only [UpdateJiraIssues, Reset]
    exact nodup_keys_foldl issueLabels b' [] (by simp [keys])

/-- C3: two calls of `UpdateGithubCommits` in a row leave the store as one call with the two
lists appended, and at every label tuple the counter has grown by the number of commits of the
first list plus the number of commits of the second list that carry the tuple. -/
theorem C3_commit_updates_accumulate (s : MetricsStorage) (a b : List github.CommitInfo) :
    UpdateGithubCommits b (UpdateGithubCommits a s) = UpdateGithubCommits (a ++ b) s ∧
    ∀ k, value k (UpdateGithubCommits b (UpdateGithubCommits a s)).githubCommitsTotal =
      value k s.githubCommitsTotal + a.countP (fun c => decide (commitLabels c = k))
        + b.countP (fun c => decide (commitLabels c = k)) := by
  constructor
  · simp [UpdateGithubCommits, List.foldl_append]
  · intro k
    simp only [UpdateGithubCommits]
    rw [value_foldl commitLabels b _ k, value_foldl commitLabels a _ k]

/-- C9: for every store state, every store operation with any input and every label tuple, the
commit count after the operation is at least the count before and a commit series present before
is present after; the same holds over any sequence of operations. -/
theorem C9_commit_counter_monotone (s : MetricsStorage) (k : Labels) :
    (∀ op : Op, value k s.githubCommitsTotal ≤ value k (op.apply s).githubCommitsTotal ∧
      (k ∈ keys s.githubCommitsTotal → k ∈ keys (op.apply s).githubCommitsTotal)) ∧
    (∀ ops : List Op,
      value k s.githubCommitsTotal ≤
        value k (ops.foldl (fun t op => op.apply t) s).githubCommitsTotal ∧
      (k ∈ keys s.githubCommitsTotal →
        k ∈ keys (ops.foldl (fun t op => op.apply t) s).githubCommitsTotal)) := by
  refine ⟨fun op => commits_mono_step s op k, ?_⟩
  intro ops
  induction ops generalizing s with
  | nil => exact ⟨le_refl _, fun h => h⟩
  | cons op ops ih =>
    have h1 := commits_mono_step s op k
    have h2 := ih (op.apply s)
    exact ⟨le_trans h1.1 h2.1, fun h => h2.2 (h1.2 h)⟩

/-- C9, at a store with one commit counted for `a`: the series is present, and it is still
present after a pull-request update. -/
theorem C9_commit_counter_monotone_witness :
    (["a", "your-repo"] ∈ keys scenario.staleStore.githubCommitsTotal) ∧
    ["a", "your-repo"] ∈
      keys ((Op.pullRequests scenario.prs).apply scenario.staleStore).githubCommitsTotal :=
  ⟨by decide,
    ((C9_commit_counter_monotone scenario.staleStore ["a", "your-repo"]).1
      (Op.pullRequests scenario.prs)).2 (by decide)⟩

end storage

/-! ## The collection cycle -/

namespace collector

open storage prometheus

/-- With a GitHub client, `collect` returns; the store and the actions are these. -/
theorem collect_configured (c : Collector) (gh : github.Client) (up : Upstream)
    (s : MetricsStorage) (h : c.githubClient = some gh) :
    collect c up s =
      match up.prs with
      | .error err =>
        .ok (s, collectRepos up ++
          [Action.GetPullRequests, Action.logPullRequestsError err, Action.logFinished])
      | .ok prs =>
        .ok (UpdateGithubPullRequests prs s, collectRepos up ++
          [Action.GetPullRequests, Action.logPullRequestsFetched prs.length,
            Action.UpdateGithubPullRequests prs, Action.logFinished]) := by
  simp [collect, h]

theorem collect_returns (c : Collector) (gh : github.Client) (up : Upstream)
    (s : MetricsStorage) (h : c.githubClient = some gh) :
    ∃ s' acts, collect c up s = .ok (s', acts) := by
  rw [collect_configured c gh up s h]
  cases up.prs with
  | error err => exact ⟨_, _, rfl⟩
  | ok prs => exact ⟨_, _, rfl⟩

theorem getRepos_mem_collectRepos (up : Upstream) : Action.GetRepos ∈ collectRepos up := by
  unfold collectRepos
  cases up.repos <;> simp

theorem collectRepos_no_issue_action (up : Upstream) :
    Action.GetIssues ∉ collectRepos up ∧ ∀ issues, Action.UpdateJiraIssues issues ∉ collectRepos up := by
  unfold collectRepos
  cases up.repos <;> simp

/-- C4 as amended: with a GitHub client, whichever of the repository and the pull-request fetch
fails, the cycle returns, both fetches are made and the cycle reaches its last line; the
pull-request update is applied whenever the pull-request fetch succeeds, also when the repository
fetch failed; when the pull-request fetch fails the store is left as it was; the cycle has no
other store update and makes no issue fetch. -/
theorem C4_fetch_failure_does_not_abort_cycle (c : Collector) (gh : github.Client)
    (up : Upstream) (s : MetricsStorage) (h : c.githubClient = some gh) :
    ∃ s' acts, collect c up s = .ok (s', acts) ∧
      Action.GetRepos ∈ acts ∧ Action.GetPullRequests ∈ acts ∧ Action.logFinished ∈ acts ∧
      (∀ prs, up.prs = .ok prs →
        s' = UpdateGithubPullRequests prs s ∧ Action.UpdateGithubPullRequests prs ∈ acts) ∧
      (∀ err, up.prs = .error err → s' = s) ∧
      s'.githubCommitsTotal = s.githubCommitsTotal ∧ s'.jiraIssues = s.jiraIssues ∧
      Action.GetIssues ∉ acts := by
  rw [collect_configured c gh up s h]
  have hr := getRepos_mem_collectRepos up
  have hn := (collectRepos_no_issue_action up).1
  cases hp : up.prs with
  | error err =>
    refine ⟨_, _, rfl, ?_, ?_, ?_, ?_, ?_, rfl, rfl, ?_⟩
    · exact List.mem_append_left _ hr
    · simp
    · simp
    · intro prs hprs
      cases hprs
    · intro _ _
      rfl
    · simp [hn]
  | ok prs =>
    refine ⟨_, _, rfl, ?_, ?_, ?_, ?_, ?_, rfl, rfl, ?_⟩
    · exact List.mem_append_left _ hr
    · simp
    · simp
    · intro prs' hprs
      cases hprs
      exact ⟨rfl, by simp⟩
    · intro err herr
      cases herr
    · simp [hn]

/-- C4 as amended, at a cycle whose repository fetch fails: the pull-request update is applied. -/
theorem C4_fetch_failure_does_not_abort_cycle_witness :
    scenario.configured.githubClient = some { owner := "o", repo := "r" } ∧
    ∃ s' acts, collect scenario.configured scenario.reposDown scenario.staleStore = .ok (s', acts) ∧
      Action.GetRepos ∈ acts ∧ Action.GetPullRequests ∈ acts ∧ Action.logFinished ∈ acts ∧
      (∀ prs, scenario.reposDown.prs = .ok prs →
        s' = UpdateGithubPullRequests prs scenario.staleStore ∧
          Action.UpdateGithubPullRequests prs ∈ acts) ∧
      (∀ err, scenario.reposDown.prs = .error err → s' = scenario.staleStore) ∧
      s'.githubCommitsTotal = scenario.staleStore.githubCommitsTotal ∧
      s'.jiraIssues = scenario.staleStore.jiraIssues ∧
      Action.GetIssues ∉ acts :=
  ⟨rfl, C4_fetch_failure_does_not_abort_cycle scenario.configured { owner := "o", repo := "r" }
    scenario.reposDown scenario.staleStore rfl⟩

/-- C4 as stated fails: in a cycle whose repository fetch fails while the pull-request and the
issue fetch would succeed, the cycle makes no issue fetch and applies no issue update; the issue
family stays empty, where `UpdateJiraIssues` on the fetched issue gives one row. -/
theorem C4_counterexample_issue_update_not_applied :
    collect scenario.configured scenario.reposDown NewMetricsStorage =
      .ok ({ githubCommitsTotal := [],
             githubPullRequestsTotal :=
               [(["your-repo", "open", "a"], 1), (["your-repo", "closed", "b"], 1)],
             jiraIssues := [] },
        [Action.GetRepos, Action.logReposError "boom", Action.GetPullRequests,
          Action.logPullRequestsFetched 2, Action.UpdateGithubPullRequests scenario.prs,
          Action.logFinished]) ∧
    scenario.reposDown.issues = .ok [scenario.issue] ∧
    (UpdateJiraIssues [scenario.issue] NewMetricsStorage).jiraIssues = [(["GT", "Done", "z"], 1)] :=
  ⟨rfl, rfl, by decide⟩

/-- C5 as amended: with a GitHub client, `collect` makes no issue fetch and never calls
`UpdateJiraIssues`, and the issue gauge family after the cycle is the family before it, whatever
the issue fetch would return.  `UpdateJiraIssues` itself, called with a list of issues, leaves
the family with one entry per label tuple of the list, each holding the number of issues with its
labels. -/
theorem C5_issues_not_forwarded_by_collect (c : Collector) (gh : github.Client)
    (up : Upstream) (s : MetricsStorage) (h : c.githubClient = some gh) :
    (∃ s' acts, collect c up s = .ok (s', acts) ∧ s'.jiraIssues = s.jiraIssues ∧
      Action.GetIssues ∉ acts ∧ ∀ issues, Action.UpdateJiraIssues issues ∉ acts) ∧
    (∀ issues : List jira.Issue,
      (keys (UpdateJiraIssues issues s).jiraIssues).Nodup ∧
      (∀ k, k ∈ keys (UpdateJiraIssues issues s).jiraIssues ↔
        ∃ issue ∈ issues, issueLabels issue = k) ∧
      (∀ k, value k (UpdateJiraIssues issues s).jiraIssues =
        issues.countP (fun issue => decide (issueLabels issue = k)))) := by
  constructor
  · rw [collect_configured c gh up s h]
    have hr := collectRepos_no_issue_action up
    cases up.prs with
    | error err =>
      refine ⟨_, _, rfl, rfl, ?_, ?_⟩
      · simp [hr.1]
      · intro issues
        simp [hr.2 issues]
    | ok prs =>
      refine ⟨_, _, rfl, rfl, ?_, ?_⟩
      · simp [hr.1]
      · intro issues
        simp [hr.2 issues]
  · intro issues
    refine ⟨?_, ?_, ?_⟩
    · simp only [UpdateJiraIssues, Reset]
      exact nodup_keys_foldl issueLabels issues [] (by simp [keys])
    · intro k
      simp only [UpdateJiraIssues, Reset]
      rw [mem_keys_foldl issueLabels issues [] k]
      simp [keys]
    · intro k
      simp only [UpdateJiraIssues, Reset]
      rw [value_foldl issueLabels issues [] k]
      simp [value]

/-- C5 as amended, at a cycle in which every fetch would succeed. -/
theorem C5_issues_not_forwarded_by_collect_witness :
    scenario.configured.githubClient = some { owner := "o", repo := "r" } ∧
    ∃ s' acts, collect scenario.configured scenario.allUp scenario.staleStore = .ok (s', acts) ∧
      s'.jiraIssues = scenario.staleStore.jiraIssues ∧
      Action.GetIssues ∉ acts ∧ ∀ issues, Action.UpdateJiraIssues issues ∉ acts :=
  ⟨rfl, (C5_issues_not_forwarded_by_collect scenario.configured { owner := "o", repo := "r" }
    scenario.allUp scenario.staleStore rfl).1⟩

/-- C5 as stated fails: in a cycle in which the issue fetch would succeed with one issue, the
issue family after the cycle is the stale row with value two, not the count one of the fetched
list. -/
theorem C5_counterexample_issue_family_stale :
    collect scenario.configured scenario.allUp scenario.staleStore =
      .ok ({ githubCommitsTotal := [(["a", "your-repo"], 1)],
             githubPullRequestsTotal := [],
             jiraIssues := [(["GT", "Done", "z"], 2)] },
        [Action.GetRepos, Action.logReposFetched 1,
          Action.logRepos [{ Owner := "o", Name := "r" }], Action.GetPullRequests,
          Action.logPullRequestsFetched 0, Action.UpdateGithubPullRequests [],
          Action.logFinished]) ∧
    scenario.allUp.issues = .ok [scenario.issue] ∧
    (UpdateJiraIssues [scenario.issue] scenario.staleStore).jiraIssues =
      [(["GT", "Done", "z"], 1)] :=
  ⟨rfl, rfl, by decide⟩

/-- C6: in a cycle with a GitHub client whose pull-request fetch returns an error, `collect`
returns normally, without a fatal error and without handing the error on, it applies no store
update, and the pull-request gauge family, like the whole store, is as before the cycle. -/
theorem C6_pull_request_fetch_error_keeps_family (c : Collector) (gh : github.Client)
    (up : Upstream) (s : MetricsStorage) (err : String)
    (h : c.githubClient = some gh) (herr : up.prs = .error err) :
    ∃ s' acts, collect c up s = .ok (s', acts) ∧
      s'.githubPullRequestsTotal = s.githubPullRequestsTotal ∧ s' = s ∧
      Action.logPullRequestsError err ∈ acts ∧
      ∀ prs, Action.UpdateGithubPullRequests prs ∉ acts := by
  rw [collect_configured c gh up s h, herr]
  refine ⟨_, _, rfl, rfl, rfl, by simp, ?_⟩
  intro prs
  unfold collectRepos
  cases up.repos <;> simp

/-- C6, at a cycle whose pull-request fetch fails, on a store that holds a pull-request row. -/
theorem C6_pull_request_fetch_error_keeps_family_witness :
    scenario.configured.githubClient = some { owner := "o", repo := "r" } ∧
    scenario.prsDown.prs = .error "boom" ∧
    ∃ s' acts, collect scenario.configured scenario.prsDown scenario.staleStore = .ok (s', acts) ∧
      s'.githubPullRequestsTotal = scenario.staleStore.githubPullRequestsTotal ∧
      s' = scenario.staleStore ∧
      Action.logPullRequestsError "boom" ∈ acts ∧
      ∀ prs, Action.UpdateGithubPullRequests prs ∉ acts :=
  ⟨rfl, rfl, C6_pull_request_fetch_error_keeps_family scenario.configured
    { owner := "o", repo := "r" } scenario.prsDown scenario.staleStore "boom" rfl rfl⟩

/-! ## The collection loop -/

/-- Whatever the collector, the loop adds as many cycles as it receives ticks. -/
theorem Run.loop_cycles_ticks (c : Collector) (up : Nat → Upstream) (events : List Event)
    (r : RunResult) :
    (Run.loop c up events r).cycles + r.ticks = (Run.loop c up events r).ticks + r.cycles := by
  induction events generalizing r with
  | nil => simp [Run.loop, Nat.add_comm]
  | cons e rest ih =>
    cases e with
    | done => simp [Run.loop, Nat.add_comm]
    | tick =>
      cases hc : collect c (up r.cycles) r.storage with
      | error msg =>
        simp only [Run.loop, hc]
        omega
      | ok res =>
        obtain ⟨s', acts⟩ := res
        simp only [Run.loop, hc]
        have := ih { r with
          storage := s', cycles := r.cycles + 1, ticks := r.ticks + 1,
          steps := r.steps ++ [RunStep.tick, RunStep.cycle] }
        simp only at this
        omega

/-- With a GitHub client, the loop runs one cycle per tick up to the first cancellation. -/
theorem Run.loop_configured (c : Collector) (gh : github.Client) (up : Nat → Upstream)
    (h : c.githubClient = some gh) (events : List Event) (r : RunResult) :
    (Run.loop c up events r).cycles = r.cycles + ticksBeforeDone events ∧
    (Run.loop c up events r).ticks = r.ticks + ticksBeforeDone events ∧
    (Run.loop c up events r).steps =
      r.steps ++ Run.rounds (ticksBeforeDone events) ++
        (if Event.done ∈ events then [RunStep.cancelled] else []) ∧
    (Run.loop c up events r).status =
      (if Event.done ∈ events then RunStatus.returned else RunStatus.waiting) := by
  induction events generalizing r with
  | nil => simp [Run.loop, ticksBeforeDone, Run.rounds]
  | cons e rest ih =>
    cases e with
    | done => simp [Run.loop, ticksBeforeDone, Run.rounds]
    | tick =>
      obtain ⟨s', acts, hc⟩ := collect_returns c gh (up r.cycles) r.storage h
      have hih := ih { r with
        storage := s', cycles := r.cycles + 1, ticks := r.ticks + 1,
        steps := r.steps ++ [RunStep.tick, RunStep.cycle] }
      have hn : ticksBeforeDone (Event.tick :: rest) = ticksBeforeDone rest + 1 := by
        simp [ticksBeforeDone]
      have hd : (Event.done ∈ Event.tick :: rest) ↔ Event.done ∈ rest := by simp
      simp only [Run.loop, hc, hn, hd, Run.rounds]
      obtain ⟨h1, h2, h3, h4⟩ := hih
      simp only at h1 h2 h3
      refine ⟨?_, ?_, ?_, h4⟩
      · rw [h1]; omega
      · rw [h2]; omega
      · rw [h3]
        simp [List.append_assoc, ticksBeforeDone]

/-- C7 as amended: for a positive interval, `Run` starts with a collection cycle, before any
event, and for every collector the number of cycles is one plus the number of ticks received.
With a GitHub client, the ticks received are the ticks delivered before the first cancellation,
the steps are the first cycle, then a cycle after each of those ticks, then the cancellation if
one is delivered and nothing after it; `Run` has returned when a cancellation was delivered and is
waiting when none was. -/
theorem C7_run_cycles (c : Collector) (interval : Int) (up : Nat → Upstream)
    (events : List Event) (s : MetricsStorage) (hpos : 0 < interval) :
    (Run c interval up events s).steps.head? = some RunStep.cycle ∧
    (Run c interval up events s).cycles = 1 + (Run c interval up events s).ticks ∧
    (c.githubClient ≠ none →
      (Run c interval up events s).ticks = ticksBeforeDone events ∧
      (Run c interval up events s).cycles = 1 + ticksBeforeDone events ∧
      (Run c interval up events s).steps =
        RunStep.cycle :: Run.rounds (ticksBeforeDone events) ++
          (if Event.done ∈ events then [RunStep.cancelled] else []) ∧
      (Event.done ∈ events → (Run c interval up events s).status = RunStatus.returned) ∧
      (Event.done ∉ events → (Run c interval up events s).status = RunStatus.waiting)) := by
  have hi : ¬ interval ≤ 0 := not_le.mpr hpos
  refine ⟨?_, ?_, ?_⟩
  · cases hc : collect c (up 0) s with
    | error msg => simp [Run, hc, hi]
    | ok res =>
      obtain ⟨s', acts⟩ := res
      simp only [Run, hc, hi, if_false]
      cases hg : c.githubClient with
      | none => simp [collect, hg] at hc
      | some gh =>
        rw [(Run.loop_configured c gh up hg events _).2.2.1]
        simp
  · cases hc : collect c (up 0) s with
    | error msg => simp [Run, hc, hi]
    | ok res =>
      obtain ⟨s', acts⟩ := res
      simp only [Run, hc, hi, if_false]
      have := Run.loop_cycles_ticks c up events
        { storage := s', cycles := 1, ticks := 0, steps := [RunStep.cycle],
          status := RunStatus.waiting }
      simp only at this
      omega
  · intro hg
    obtain ⟨gh, hgh⟩ := Option.ne_none_iff_exists'.mp hg
    obtain ⟨s', acts, hc⟩ := collect_returns c gh (up 0) s hgh
    simp only [Run, hc, hi, if_false]
    obtain ⟨h1, h2, h3, h4⟩ := Run.loop_configured c gh up hgh events
      { storage := s', cycles := 1, ticks := 0, steps := [RunStep.cycle],
        status := RunStatus.waiting }
    refine ⟨?_, ?_, ?_, ?_, ?_⟩
    · rw [h2]; simp
    · rw [h1]
    · rw [h3]; simp
    · intro hd
      rw [h4]; simp [hd]
    · intro hd
      rw [h4]; simp [hd]

/-- C7 as amended, at an interval of one minute and two ticks, a cancellation and a further tick:
three cycles, and `Run` has returned. -/
theorem C7_run_cycles_witness :
    (0 : Int) < 60000000000 ∧
    scenario.configured.githubClient ≠ none ∧
    Event.done ∈ scenario.events ∧
    (Run scenario.configured 60000000000 (fun _ => scenario.allUp) scenario.events
      NewMetricsStorage).cycles = 1 + ticksBeforeDone scenario.events ∧
    ticksBeforeDone scenario.events = 2 ∧
    (Run scenario.configured 60000000000 (fun _ => scenario.allUp) scenario.events
      NewMetricsStorage).status = RunStatus.returned :=
  ⟨by decide, by decide, by decide,
    ((C7_run_cycles scenario.configured 60000000000 (fun _ => scenario.allUp) scenario.events
      NewMetricsStorage (by decide)).2.2 (by decide)).2.1,
    by decide,
    ((C7_run_cycles scenario.configured 60000000000 (fun _ => scenario.allUp) scenario.events
      NewMetricsStorage (by decide)).2.2 (by decide)).2.2.2.1 (by decide)⟩

/-- C7 as stated fails: with an interval of zero `Run` panics in `time.NewTicker`, before its
first collection cycle; it performs no cycle at all, where the claim counts one. -/
theorem C7_counterexample_zero_interval :
    Run scenario.configured 0 (fun _ => scenario.allUp) scenario.events NewMetricsStorage =
      { storage := NewMetricsStorage, cycles := 0, ticks := 0, steps := [],
        status := RunStatus.panicked "non-positive interval for NewTicker" } ∧
    ticksBeforeDone scenario.events = 2 :=
  ⟨rfl, by decide⟩

end collector

/-! ## Startup -/

namespace cmd

/-- An empty GitHub variable ends startup at the first check. -/
theorem main_github_missing (getenv : String → String)
    (parseDuration : String → Except String Int)
    (newJiraClient : String → String → String → Except String Unit)
    (h : getenv "GITHUB_TOKEN" = "" ∨ getenv "GITHUB_OWNER" = "" ∨ getenv "GITHUB_REPO" = "") :
    main getenv parseDuration newJiraClient = ([], some Fatal.githubVariables) := by
  simp only [main, if_pos h]

/-- With the GitHub variables set, an empty Jira variable ends startup at the second check. -/
theorem main_jira_missing (getenv : String → String)
    (parseDuration : String → Except String Int)
    (newJiraClient : String → String → String → Except String Unit)
    (hg : ¬ (getenv "GITHUB_TOKEN" = "" ∨ getenv "GITHUB_OWNER" = "" ∨ getenv "GITHUB_REPO" = ""))
    (h : getenv "JIRA_URL" = "" ∨ getenv "JIRA_EMAIL" = "" ∨ getenv "JIRA_API_TOKEN" = "") :
    main getenv parseDuration newJiraClient = ([], some Fatal.jiraVariables) := by
  simp only [main, if_neg hg, if_pos h]

/-- With the six variables set, startup does not end at a credential check. -/
theorem main_credentials_set (getenv : String → String)
    (parseDuration : String → Except String Int)
    (newJiraClient : String → String → String → Except String Unit)
    (hg : ¬ (getenv "GITHUB_TOKEN" = "" ∨ getenv "GITHUB_OWNER" = "" ∨ getenv "GITHUB_REPO" = ""))
    (hj : ¬ (getenv "JIRA_URL" = "" ∨ getenv "JIRA_EMAIL" = "" ∨ getenv "JIRA_API_TOKEN" = "")) :
    (main getenv parseDuration newJiraClient).2 ≠ some Fatal.githubVariables ∧
    (main getenv parseDuration newJiraClient).2 ≠ some Fatal.jiraVariables := by
  simp only [main, if_neg hg, if_neg hj]
  cases parseDuration (if getenv "COLLECTION_INTERVAL" = "" then "1m"
      else getenv "COLLECTION_INTERVAL") with
  | error err => simp
  | ok d =>
    cases newJiraClient (getenv "JIRA_URL") (getenv "JIRA_EMAIL") (getenv "JIRA_API_TOKEN") with
    | error err => simp
    | ok u => simp

theorem credential_missing_iff (getenv : String → String) :
    (∃ v ∈ credentialVariables, getenv v = "") ↔
      (getenv "GITHUB_TOKEN" = "" ∨ getenv "GITHUB_OWNER" = "" ∨ getenv "GITHUB_REPO" = "") ∨
      (getenv "JIRA_URL" = "" ∨ getenv "JIRA_EMAIL" = "" ∨ getenv "JIRA_API_TOKEN" = "") := by
  simp only [credentialVariables, List.mem_cons, List.mem_singleton, List.not_mem_nil, or_false,
    exists_eq_or_imp, exists_eq_left]
  tauto

set_option maxRecDepth 100000 in
/-- C8 as amended: for every assignment of the six credential variables, `main` ends at one of
its two credential checks, with nothing created or started, exactly when at least one of the six
is empty.  The fatal call is the GitHub one when a GitHub variable is empty, whatever the Jira
variables are, and the Jira one when only Jira variables are empty.  The GitHub message names
the three GitHub variables and the Jira message the three Jira variables, the whole group and not
only the empty ones. -/
theorem C8_missing_credentials_fatal (getenv : String → String)
    (parseDuration : String → Except String Int)
    (newJiraClient : String → String → String → Except String Unit) :
    ((∃ v ∈ credentialVariables, getenv v = "") ↔
      (main getenv parseDuration newJiraClient = ([], some Fatal.githubVariables) ∨
        main getenv parseDuration newJiraClient = ([], some Fatal.jiraVariables))) ∧
    ((getenv "GITHUB_TOKEN" = "" ∨ getenv "GITHUB_OWNER" = "" ∨ getenv "GITHUB_REPO" = "") →
      main getenv parseDuration newJiraClient = ([], some Fatal.githubVariables)) ∧
    (¬ (getenv "GITHUB_TOKEN" = "" ∨ getenv "GITHUB_OWNER" = "" ∨ getenv "GITHUB_REPO" = "") →
      (getenv "JIRA_URL" = "" ∨ getenv "JIRA_EMAIL" = "" ∨ getenv "JIRA_API_TOKEN" = "") →
      main getenv parseDuration newJiraClient = ([], some Fatal.jiraVariables)) ∧
    (∀ v ∈ ["GITHUB_TOKEN", "GITHUB_OWNER", "GITHUB_REPO"],
      names (Fatal.message Fatal.githubVariables) v) ∧
    (∀ v ∈ ["JIRA_URL", "JIRA_EMAIL", "JIRA_API_TOKEN"],
      names (Fatal.message Fatal.jiraVariables) v) := by
  refine ⟨?_, main_github_missing getenv parseDuration newJiraClient,
    main_jira_missing getenv parseDuration newJiraClient, by decide, by decide⟩
  rw [credential_missing_iff]
  constructor
  · intro h
    by_cases hg : getenv "GITHUB_TOKEN" = "" ∨ getenv "GITHUB_OWNER" = "" ∨
        getenv "GITHUB_REPO" = ""
    · exact Or.inl (main_github_missing getenv parseDuration newJiraClient hg)
    · rcases h with h | h
      · exact absurd h hg
      · exact Or.inr (main_jira_missing getenv parseDuration newJiraClient hg h)
  · intro h
    by_contra hn
    rw [not_or] at hn
    have hset := main_credentials_set getenv parseDuration newJiraClient hn.1 hn.2
    rcases h with h | h
    · exact hset.1 (by rw [h])
    · exact hset.2 (by rw [h])

/-- C8 as amended, with no variable set: the GitHub variables are empty and `main` ends at the
GitHub check with nothing created or started. -/
theorem C8_missing_credentials_fatal_witness :
    ((fun _ : String => "") "GITHUB_TOKEN" = "" ∨ (fun _ : String => "") "GITHUB_OWNER" = "" ∨
      (fun _ : String => "") "GITHUB_REPO" = "") ∧
    main (fun _ => "") (fun _ => .ok 60000000000) (fun _ _ _ => .ok ()) =
      ([], some Fatal.githubVariables) :=
  ⟨Or.inl rfl,
    (C8_missing_credentials_fatal (fun _ => "") (fun _ => .ok 60000000000)
      (fun _ _ _ => .ok ())).2.1 (Or.inl rfl)⟩

set_option maxRecDepth 100000 in
/-- C8 as stated fails: with no variable set, `JIRA_URL` is among the missing variables, `main`
ends at the GitHub check, and the message of that check does not name `JIRA_URL`. -/
theorem C8_counterexample_message_omits_jira :
    "JIRA_URL" ∈ credentialVariables ∧ (fun _ : String => "") "JIRA_URL" = "" ∧
    main (fun _ => "") (fun _ => .ok 60000000000) (fun _ _ _ => .ok ()) =
      ([], some Fatal.githubVariables) ∧
    ¬ names (Fatal.message Fatal.githubVariables) "JIRA_URL" :=
  ⟨by decide, rfl, rfl, by decide⟩

end cmd

/-! ## Scrapes during an update -/

namespace storage

open prometheus

theorem exec_append (l1 l2 : List Instr) (sh : Shared) :
    exec (l1 ++ l2) sh = (exec l1 sh).bind (exec l2) := by
  induction l1 generalizing sh with
  | nil => simp [exec]
  | cons i rest ih =>
    simp only [List.cons_append, exec]
    cases i.step sh with
    | none => simp
    | some sh' => simpa using ih sh'

theorem exec_incPullRequests (prs : List github.PullRequestInfo) (sh : Shared) :
    exec (prs.map (fun pr => Instr.incPullRequests (prLabels pr))) sh =
      some { sh with
        store := { sh.store with
          githubPullRequestsTotal :=
            List.foldl (fun m pr => WithLabelValuesInc (prLabels pr) m)
              sh.store.githubPullRequestsTotal prs } } := by
  induction prs generalizing sh with
  | nil => simp [exec]
  | cons pr rest ih =>
    simp only [List.map_cons, exec, Instr.step, List.foldl_cons]
    rw [ih]

/-- Run alone from a free mutex, the steps of `UpdateGithubPullRequests` end with the mutex free
and the store that the method yields. -/
theorem exec_UpdateGithubPullRequests (prs : List github.PullRequestInfo) (s : MetricsStorage) :
    exec (UpdateGithubPullRequests.instrs prs) { mu := false, store := s } =
      some { mu := false, store := UpdateGithubPullRequests prs s } := by
  unfold UpdateGithubPullRequests.instrs
  rw [exec_append, exec_append]
  simp only [exec, Instr.step, Bool.false_eq_true, if_false, Option.some_bind]
  rw [exec_incPullRequests]
  simp [exec, Instr.step, UpdateGithubPullRequests]

/-- C10 fails on the code: while `UpdateGithubPullRequests` runs on a store whose pull-request
family holds a row, a scrape that comes after `Reset()` and before the first `Inc()`, while the
update holds the mutex, is not held back and reads an empty pull-request family, which is neither
the family before the update nor the family after it. -/
theorem C10_scrape_reads_reset_family :
    scrapeAfter 0 (UpdateGithubPullRequests.instrs scenario.prs)
        { mu := false, store := scenario.staleStore } = some scenario.staleStore ∧
    scrapeAfter 2 (UpdateGithubPullRequests.instrs scenario.prs)
        { mu := false, store := scenario.staleStore } =
      some { scenario.staleStore with githubPullRequestsTotal := [] } ∧
    (exec ((UpdateGithubPullRequests.instrs scenario.prs).take 2)
        { mu := false, store := scenario.staleStore }).map Shared.mu = some true ∧
    exec (UpdateGithubPullRequests.instrs scenario.prs)
        { mu := false, store := scenario.staleStore } =
      some { mu := false, store := UpdateGithubPullRequests scenario.prs scenario.staleStore } ∧
    ([] : MetricVec) ≠ scenario.staleStore.githubPullRequestsTotal ∧
    ([] : MetricVec) ≠
      (UpdateGithubPullRequests scenario.prs scenario.staleStore).githubPullRequestsTotal :=
  ⟨by decide, by decide, by decide, by decide, by decide, by decide⟩

end storage
